import Mathlib

/-!
Verification development for the Markdown rendering engine of the
`mcp-notion-server` repository (`src/markdown/index.ts` together with the
sanitisation helpers of `src/utils/validation.ts`).

The TypeScript code is shallowly embedded as follows.

* JavaScript values that flow through the renderer are modelled by the
  inductive type `JValue` (null, undefined, booleans, numbers, strings,
  arrays, objects).  Numbers are modelled as integers: every numeric literal
  the renderer manipulates is printed with `Number.prototype.toString`, which
  agrees with integer printing on integers, and no claim depends on float
  formatting.
* JavaScript property access `x.f` throws a `TypeError` when `x` is `null`
  or `undefined` and otherwise never throws; renderer functions are therefore
  embedded in the `Except JsErr` monad.  `fieldD` is the total field lookup
  used after a truthiness guard has already established that the receiver is
  neither `null` nor `undefined` (on such receivers access cannot throw).
  The source only reads non-index keys (such as `"rich_text"`) from
  primitive receivers, where JavaScript yields `undefined`; `fieldD` returns
  `JValue.jundef` there accordingly.
* The three regular-expression replacements of `sanitizeString` are
  implemented as deterministic scanners (`removeScripts`, `removeOnAttr`,
  `removeDataUri`).  Each of the regexes is deterministic in the sense that
  greedy matching never needs to backtrack: `[^<]*`, `\w+`, `[^;]*` and
  `[^"]*` stop exactly at the first character their continuation consumes.
  Case-insensitive matching (`i` flag) is modelled by comparing
  lowercased characters, which agrees with JavaScript on the ASCII patterns
  involved.  The scanners take explicit fuel so that all definitions are
  structurally recursive and compute inside the kernel; the fuel equals the
  length of the scanned list, which bounds the number of scan steps because
  every step consumes at least one character.
-/

namespace NotionMd

/-- A JavaScript value as it appears in a deserialized Notion API response.
Deserialized JSON is acyclic and alias-free, which this tree type captures;
aliased/cyclic object graphs (relevant only to `safeStringify`) are modelled
separately by `GHeap`/`GValue` below. -/
inductive JValue where
  | jnull
  | jundef
  | jbool (b : Bool)
  | jnum (n : Int)
  | jstr (s : String)
  | jarr (elems : List JValue)
  | jobj (fields : List (String × JValue))

/-- The only exception the embedded renderer can raise: a `TypeError` from a
property access on `null`/`undefined` or from calling `.map` on a
non-array. -/
inductive JsErr where
  | typeError
deriving DecidableEq

/-- JavaScript truthiness.  (`NaN` is not modelled; numbers are integers.) -/
def jsTruthy : JValue → Bool
  | JValue.jnull => false
  | JValue.jundef => false
  | JValue.jbool b => b
  | JValue.jnum n => decide (n ≠ 0)
  | JValue.jstr s => s != ""
  | JValue.jarr _ => true
  | JValue.jobj _ => true

/-- Lookup of a key in an object's field list (JavaScript objects cannot have
duplicate keys; inputs used in theorems have distinct keys and lookup takes
the first match). Missing keys yield `undefined`. -/
def lookupField (k : String) : List (String × JValue) → JValue
  | [] => JValue.jundef
  | (k2, v) :: rest => if k2 == k then v else lookupField k rest

/-- Total property access, used where the receiver is known to be neither
`null` nor `undefined`.  Named (non-index) keys on primitives and arrays
yield `undefined`, as in JavaScript for the keys the source reads. -/
def fieldD : JValue → String → JValue
  | JValue.jobj fields, k => lookupField k fields
  | _, _ => JValue.jundef

/-- Property access `x.f`: throws `TypeError` on `null`/`undefined`. -/
def getF (v : JValue) (k : String) : Except JsErr JValue :=
  match v with
  | JValue.jnull => Except.error JsErr.typeError
  | JValue.jundef => Except.error JsErr.typeError
  | _ => Except.ok (fieldD v k)

/-- Optional chaining `x?.f`: `undefined` on nullish receivers, otherwise a
plain (non-throwing) access. -/
def optF (v : JValue) (k : String) : JValue :=
  match v with
  | JValue.jnull => JValue.jundef
  | JValue.jundef => JValue.jundef
  | _ => fieldD v k

/-- JavaScript `a || b`. -/
def jOr (a b : JValue) : JValue := if jsTruthy a then a else b

/-- Strict equality `x === "lit"` against a string literal. -/
def jsEqStr (v : JValue) (s : String) : Bool :=
  match v with
  | JValue.jstr t => t == s
  | _ => false

/-- `Array.isArray`. -/
def isArray : JValue → Bool
  | JValue.jarr _ => true
  | _ => false

mutual

/-- JavaScript `String(v)` / template-literal interpolation.  Arrays convert
via `Array.prototype.toString` (comma-joined elements, nullish elements
empty), plain objects to `"[object Object]"`. -/
def jsToStr : JValue → String
  | JValue.jnull => "null"
  | JValue.jundef => "undefined"
  | JValue.jbool b => cond b "true" "false"
  | JValue.jnum n => toString n
  | JValue.jstr s => s
  | JValue.jarr xs => String.intercalate "," (jsToStrElems xs)
  | JValue.jobj _ => "[object Object]"

/-- Element conversion for `Array.prototype.toString`. -/
def jsToStrElems : List JValue → List String
  | [] => []
  | JValue.jnull :: rest => "" :: jsToStrElems rest
  | JValue.jundef :: rest => "" :: jsToStrElems rest
  | x :: rest => jsToStr x :: jsToStrElems rest

end

/-- `x?.toString()` as a JavaScript value: `undefined` when `x` is nullish,
otherwise the string conversion. -/
def optToStr (v : JValue) : JValue :=
  match v with
  | JValue.jnull => JValue.jundef
  | JValue.jundef => JValue.jundef
  | _ => JValue.jstr (jsToStr v)

/-- `Object.entries`.  Objects list their fields in insertion order, arrays
and strings their indexed elements, other primitives have no enumerable own
properties. -/
def entriesD : JValue → List (String × JValue)
  | JValue.jobj fields => fields
  | JValue.jarr xs => xs.enum.map (fun p => (toString p.1, p.2))
  | JValue.jstr s => s.toList.enum.map (fun p => (toString p.1, JValue.jstr (String.mk [p.2])))
  | _ => []

/-- Sequential effectful map, modelling `Array.prototype.map` over a callback
that can throw (the exception propagates). -/
def mapME {α β : Type} (f : α → Except JsErr β) : List α → Except JsErr (List β)
  | [] => Except.ok []
  | x :: rest => do
      let b ← f x
      let r ← mapME f rest
      pure (b :: r)

/-- Calling `.map` on a value: throws `TypeError` unless it is an array. -/
def jsArrayOrThrow (v : JValue) : Except JsErr (List JValue) :=
  match v with
  | JValue.jarr xs => Except.ok xs
  | _ => Except.error JsErr.typeError

/-! ### The sanitiser (`sanitizeString` of `src/utils/validation.ts`) -/

/-- The double-quote character (written numerically to keep character
literals simple). -/
def dquote : Char := Char.ofNat 34

/-- The single-quote character. -/
def squote : Char := Char.ofNat 39

/-- JavaScript `\w` (no `u` flag): ASCII letters, digits, underscore. -/
def isWordChar (c : Char) : Bool := c.isAlpha || c.isDigit || c == '_'

/-- Case-insensitive match of one subject character against a lowercase ASCII
pattern character. -/
def lcEq (c p : Char) : Bool := c.toLower == p

/-- Does the list start with the given lowercase pattern,
case-insensitively? -/
def startsWithCI : List Char → List Char → Bool
  | [], _ => true
  | _ :: _, [] => false
  | p :: ps, c :: cs => lcEq c p && startsWithCI ps cs

/-- The literal `<script` of the script regex. -/
def openScript : List Char := ['<', 's', 'c', 'r', 'i', 'p', 't']

/-- The literal `</script>` of the script regex. -/
def closeScript : List Char := ['<', '/', 's', 'c', 'r', 'i', 'p', 't', '>']

/-- The loop `(?:(?!<\/script>)<[^<]*)*<\/script>` of
`/<script\b[^<]*(?:(?!<\/script>)<[^<]*)*<\/script>/gi`, entered at a
position that is either the end of input or a `<`.  Returns the rest of the
input after the closing tag when the loop can reach one.  Fuel is the length
of the scanned list. -/
def scriptTailF : Nat → List Char → Option (List Char)
  | 0, _ => none
  | _ + 1, [] => none
  | fuel + 1, c :: rest =>
      if startsWithCI closeScript (c :: rest) then some (rest.drop 8)
      else scriptTailF fuel (rest.dropWhile (fun x => decide (x ≠ '<')))

/-- Entry point for the loop above with adequate fuel. -/
def scriptTail (l : List Char) : Option (List Char) := scriptTailF l.length l

/-- Attempt to match the script regex at the head of the list: literal
`<script` (case-insensitive), a word boundary, `[^<]*`, then the closing
loop. -/
def matchScriptAt (l : List Char) : Option (List Char) :=
  if startsWithCI openScript l then
    match l.drop 7 with
    | [] => none
    | c :: rest =>
        if isWordChar c then none
        else scriptTail ((c :: rest).dropWhile (fun x => decide (x ≠ '<')))
  else none

/-- Global replacement of the script regex by the empty string: scan left to
right, resuming after each match (reproducing `String.prototype.replace`
with the `g` flag).  Fuel bounds the number of scan steps. -/
def removeScriptsF : Nat → List Char → List Char
  | 0, l => l
  | _ + 1, [] => []
  | fuel + 1, c :: rest =>
      match matchScriptAt (c :: rest) with
      | some rem => removeScriptsF fuel rem
      | none => c :: removeScriptsF fuel rest

/-- First replacement pass of `sanitizeString`. -/
def removeScripts (l : List Char) : List Char := removeScriptsF l.length l

/-- Attempt to match `/on\w+=q[^q]*q/i` (for quote character `q`) at the head
of the list. -/
def matchOnAttrAt (q : Char) (l : List Char) : Option (List Char) :=
  if startsWithCI ['o', 'n'] l then
    let rest := l.drop 2
    let w := rest.takeWhile isWordChar
    let rest2 := rest.dropWhile isWordChar
    if w.isEmpty then none
    else
      match rest2 with
      | c1 :: rest3 =>
          if c1 == '=' then
            match rest3 with
            | c2 :: rest4 =>
                if c2 == q then
                  match rest4.dropWhile (fun x => decide (x ≠ q)) with
                  | _ :: rem => some rem
                  | [] => none
                else none
            | [] => none
          else none
      | [] => none
  else none

/-- Global replacement of the event-handler-attribute regex by the empty
string (second and third passes of `sanitizeString`, for `"` and `'`). -/
def removeOnAttrF (q : Char) : Nat → List Char → List Char
  | 0, l => l
  | _ + 1, [] => []
  | fuel + 1, c :: rest =>
      match matchOnAttrAt q (c :: rest) with
      | some rem => removeOnAttrF q fuel rem
      | none => c :: removeOnAttrF q fuel rest

/-- Entry point for the event-handler pass with adequate fuel. -/
def removeOnAttr (q : Char) (l : List Char) : List Char := removeOnAttrF q l.length l

/-- The base64 alphabet of `[a-z0-9+/=]` under the `i` flag. -/
def b64Char (c : Char) : Bool := c.isAlpha || c.isDigit || c == '+' || c == '/' || c == '='

/-- The literal `data:` of the data-URI regex. -/
def dataPat : List Char := ['d', 'a', 't', 'a', ':']

/-- The literal `;base64,` of the data-URI regex. -/
def basePat : List Char := [';', 'b', 'a', 's', 'e', '6', '4', ',']

/-- Does `/data:[^;]*;base64,[a-z0-9+/=]*$/i` match starting exactly here and
extending to the end of the input?  (`[^;]*` stops at the first `;`, which
must begin `;base64,`; the `$` anchor forces the tail to consist of base64
characters only.) -/
def matchDataUriAt (l : List Char) : Bool :=
  startsWithCI dataPat l &&
    (let rest := (l.drop 5).dropWhile (fun x => decide (x ≠ ';'))
     startsWithCI basePat rest && (rest.drop 8).all b64Char)

/-- Fourth replacement pass of `sanitizeString`: remove an end-anchored
data-URI.  Because every match runs to the end of the string, removal
truncates at the leftmost matching position. -/
def removeDataUri : List Char → List Char
  | [] => []
  | c :: rest => if matchDataUriAt (c :: rest) then [] else c :: removeDataUri rest

/-- The string-level sanitiser: the four replacement passes in source
order. -/
def sanitizeCore (s : String) : String :=
  String.mk (removeDataUri (removeOnAttr squote (removeOnAttr dquote (removeScripts s.toList))))

/-- `sanitizeString`: non-string input (checked with `typeof`) yields the
empty string, otherwise the four replacements run. -/
def sanitizeString (v : JValue) : String :=
  match v with
  | JValue.jstr s => sanitizeCore s
  | _ => ""

/-! ### `safeStringify` (`JSON.stringify(obj, getCircularReplacer(), 2)`)

On the acyclic, alias-free values of `JValue` the `WeakSet`-based circular
replacer never fires (each deserialized object has a distinct identity and is
visited once), so `safeStringify` reduces to plain `JSON.stringify` with
two-space indentation.  The aliased/cyclic case is modelled faithfully by
`safeStringifyG` on explicit heaps below. -/

/-- One character of a JSON string literal, as escaped by `JSON.stringify`:
quote and backslash are backslash-escaped, the common control characters get
their short escapes, remaining control characters become `\u00xx`. -/
def jsonEscapeChar (c : Char) : List Char :=
  if c == dquote then ['\\', dquote]
  else if c == '\\' then ['\\', '\\']
  else if c == '\n' then ['\\', 'n']
  else if c == '\r' then ['\\', 'r']
  else if c == '\t' then ['\\', 't']
  else if c == Char.ofNat 8 then ['\\', 'b']
  else if c == Char.ofNat 12 then ['\\', 'f']
  else if c.toNat < 32 then
    ['\\', 'u', '0', '0',
     (if c.toNat / 16 < 10 then Char.ofNat (48 + c.toNat / 16) else Char.ofNat (87 + c.toNat / 16)),
     (if c.toNat % 16 < 10 then Char.ofNat (48 + c.toNat % 16) else Char.ofNat (87 + c.toNat % 16))]
  else [c]

/-- A JSON string literal for `s`. -/
def jsonQuote (s : String) : String :=
  String.mk (dquote :: (s.toList.map jsonEscapeChar).flatten ++ [dquote])

mutual

/-- `JSON.stringify(v, replacer, 2)` restricted to tree values, where the
circular replacer acts as the identity.  `ind` is the current indentation;
`none` models the JavaScript result `undefined` (for `undefined` input). -/
def jsonStringify (ind : String) : JValue → Option String
  | JValue.jundef => none
  | JValue.jnull => some "null"
  | JValue.jbool b => some (cond b "true" "false")
  | JValue.jnum n => some (toString n)
  | JValue.jstr s => some (jsonQuote s)
  | JValue.jarr xs =>
      let items := jsonStringifyElems (ind ++ "  ") xs
      some (if items.isEmpty then "[]"
            else "[\n" ++ ind ++ "  " ++ String.intercalate (",\n" ++ ind ++ "  ") items ++
                 "\n" ++ ind ++ "]")
  | JValue.jobj fields =>
      let items := jsonStringifyMembers (ind ++ "  ") fields
      some (if items.isEmpty then "\x7b\x7d"
            else "\x7b\n" ++ ind ++ "  " ++ String.intercalate (",\n" ++ ind ++ "  ") items ++
                 "\n" ++ ind ++ "\x7d")

/-- Array elements: non-serializable elements print as `null`. -/
def jsonStringifyElems (ind : String) : List JValue → List String
  | [] => []
  | x :: rest => ((jsonStringify ind x).getD "null") :: jsonStringifyElems ind rest

/-- Object members: fields whose value serializes to `undefined` are
skipped. -/
def jsonStringifyMembers (ind : String) : List (String × JValue) → List String
  | [] => []
  | kv :: rest =>
      match jsonStringify ind kv.2 with
      | none => jsonStringifyMembers ind rest
      | some sv => (jsonQuote kv.1 ++ ": " ++ sv) :: jsonStringifyMembers ind rest

end

/-- `safeStringify` on tree values.  The `try`/`catch` of the source is
invisible here because `JSON.stringify` with the circular replacer cannot
throw on these values; the catch branch is modelled (and exercised) in the
heap-based `safeStringifyG`. -/
def safeStringify (v : JValue) : Option String := jsonStringify "" v

/-- Interpolating a possibly-`undefined` JavaScript string into a template
literal (`undefined` prints as `"undefined"`). -/
def strInterp (o : Option String) : String := o.getD "undefined"

/-! ### `extractRichText` and `escapeTableCell` (`src/markdown/index.ts`) -/

/-- Rendering of one rich-text item inside `extractRichText`'s `.map`
callback: sanitized plain text, then — when `annotations` is present — the
code / bold / italic / strikethrough wrappers in source order, then the link
wrapper when `href` is truthy.  The initial `item.plain_text` access throws
on a nullish item. -/
def renderRichItem (item : JValue) : Except JsErr String := do
  let pt ← getF item "plain_text"
  let base := sanitizeString (jOr pt (JValue.jstr ""))
  let ann := fieldD item "annotations"
  let t1 :=
    if jsTruthy ann then
      let t := base
      let t := if jsTruthy (fieldD ann "code") then "`" ++ t ++ "`" else t
      let t := if jsTruthy (fieldD ann "bold") then "**" ++ t ++ "**" else t
      let t := if jsTruthy (fieldD ann "italic") then "*" ++ t ++ "*" else t
      if jsTruthy (fieldD ann "strikethrough") then "~~" ++ t ++ "~~" else t
    else base
  let href := fieldD item "href"
  pure (if jsTruthy href then "[" ++ t1 ++ "](" ++ sanitizeString href ++ ")" else t1)

/-- `extractRichText`: empty string unless the argument is a (truthy) array,
otherwise the item renderings concatenated with no separator
(`.join("")`). -/
def extractRichText (v : JValue) : Except JsErr String :=
  if jsTruthy v = false then pure ""
  else
    match v with
    | JValue.jarr xs => do
        let parts ← mapME renderRichItem xs
        pure (String.join parts)
    | _ => pure ""

/-- The `.replace(/\|/g, "\\|")` pass of `escapeTableCell`. -/
def escPipes : List Char → List Char
  | [] => []
  | c :: rest => if c == '|' then '\\' :: '|' :: escPipes rest else c :: escPipes rest

/-- The `.replace(/\n/g, " ")` pass. -/
def nlToSpace (l : List Char) : List Char :=
  l.map (fun c => if c == '\n' then ' ' else c)

/-- The `.replace(/\+/g, "\\+")` pass. -/
def escPlus : List Char → List Char
  | [] => []
  | c :: rest => if c == '+' then '\\' :: '+' :: escPlus rest else c :: escPlus rest

/-- `escapeTableCell`: empty (falsy) strings map to themselves; otherwise
sanitize, then escape pipes, replace newlines by spaces, and escape plus
signs, in source order. -/
def escapeTableCell (text : String) : String :=
  if text = "" then ""
  else String.mk (escPlus (nlToSpace (escPipes (sanitizeCore text).toList)))

/-! ### Page properties (`extractPageTitle`, `convertPropertiesToMarkdown`) -/

/-- The loop body of `extractPageTitle`: find the first property whose
`type` is strictly `"title"` and whose `title` is an array, and render it.
Accessing `.type` on a nullish property value throws. -/
def findTitle : List (String × JValue) → Except JsErr String
  | [] => pure ""
  | (_, p) :: rest => do
      let tp ← getF p "type"
      if jsEqStr tp "title" then
        let tl := fieldD p "title"
        if isArray tl then extractRichText tl else findTitle rest
      else findTitle rest

/-- `extractPageTitle`. -/
def extractPageTitle (page : JValue) : Except JsErr String :=
  if jsTruthy page = false then pure ""
  else if jsTruthy (fieldD page "properties") = false then pure ""
  else findTitle (entriesD (fieldD page "properties"))

/-- The `switch (property.type)` of `convertPropertiesToMarkdown` for a
string-valued type tag (strict equality against the case labels sends every
non-string tag to the default arm, handled in `propertyValueString`). -/
def propertyValueCase (ts : String) (property : JValue) : Except JsErr String :=
  match ts with
  | "title" => extractRichText (jOr (fieldD property "title") (JValue.jarr []))
  | "rich_text" => extractRichText (jOr (fieldD property "rich_text") (JValue.jarr []))
  | "number" =>
      -- property.number?.toString() || ""
      pure (match optToStr (fieldD property "number") with
            | JValue.jstr s => s
            | _ => "")
  | "select" =>
      pure (sanitizeString (jOr (optF (fieldD property "select") "name") (JValue.jstr "")))
  | "multi_select" => do
      let items ← jsArrayOrThrow (jOr (fieldD property "multi_select") (JValue.jarr []))
      let names ← mapME (fun item => do pure (sanitizeString (← getF item "name"))) items
      pure (String.intercalate ", " names)
  | "date" =>
      let d := fieldD property "date"
      let start := sanitizeString (jOr (optF d "start") (JValue.jstr ""))
      pure (start ++ (if jsTruthy (optF d "end")
                      then " → " ++ sanitizeString (fieldD d "end") else ""))
  | "people" => do
      let items ← jsArrayOrThrow (jOr (fieldD property "people") (JValue.jarr []))
      let names ← mapME (fun person => do
          let n ← getF person "name"
          pure (sanitizeString (jOr n (fieldD person "id")))) items
      pure (String.intercalate ", " names)
  | "files" => do
      let items ← jsArrayOrThrow (jOr (fieldD property "files") (JValue.jarr []))
      let parts ← mapME (fun file => do
          let nm ← getF file "name"
          let name := sanitizeString (jOr nm (JValue.jstr "Attachment"))
          let url := sanitizeString
            (jOr (optF (fieldD file "file") "url")
              (jOr (optF (fieldD file "external") "url") (JValue.jstr "#")))
          pure ("[" ++ name ++ "](" ++ url ++ ")")) items
      pure (String.intercalate ", " parts)
  | "checkbox" =>
      pure (if jsTruthy (fieldD property "checkbox") then "✓" else "✗")
  | "url" =>
      pure (sanitizeString (jOr (fieldD property "url") (JValue.jstr "")))
  | "email" =>
      pure (sanitizeString (jOr (fieldD property "email") (JValue.jstr "")))
  | "phone_number" =>
      pure (sanitizeString (jOr (fieldD property "phone_number") (JValue.jstr "")))
  | "formula" =>
      let f := fieldD property "formula"
      pure (sanitizeString
        (jOr (jOr (jOr (optF f "string") (optToStr (optF f "number")))
          (optToStr (optF f "boolean"))) (JValue.jstr "")))
  | "status" =>
      pure (sanitizeString (jOr (optF (fieldD property "status") "name") (JValue.jstr "")))
  | "relation" => do
      let items ← jsArrayOrThrow (jOr (fieldD property "relation") (JValue.jarr []))
      let parts ← mapME (fun relation => do
          pure ("`" ++ sanitizeString (← getF relation "id") ++ "`")) items
      pure (String.intercalate ", " parts)
  | "rollup" =>
      let r := fieldD property "rollup"
      if jsEqStr (optF r "type") "array" then
        -- safeStringify of a non-undefined argument is always a string
        pure ((safeStringify (jOr (fieldD r "array") (JValue.jarr []))).getD "")
      else
        pure (sanitizeString
          (jOr (jOr (jOr (optToStr (optF r "number")) (optF (optF r "date") "start"))
            (optF r "string")) (JValue.jstr "")))
  | "created_by" =>
      let cb := fieldD property "created_by"
      pure (sanitizeString (jOr (jOr (optF cb "name") (optF cb "id")) (JValue.jstr "")))
  | "created_time" =>
      pure (sanitizeString (jOr (fieldD property "created_time") (JValue.jstr "")))
  | "last_edited_by" =>
      let lb := fieldD property "last_edited_by"
      pure (sanitizeString (jOr (jOr (optF lb "name") (optF lb "id")) (JValue.jstr "")))
  | "last_edited_time" =>
      pure (sanitizeString (jOr (fieldD property "last_edited_time") (JValue.jstr "")))
  | _ => pure "(Unsupported property type)"

/-- The `switch (property.type)` of `convertPropertiesToMarkdown`, computing
the display string of one page property.  The initial `.type` access throws
on a nullish property; strict comparison against the case labels means a
non-string tag always selects the default arm. -/
def propertyValueString (property : JValue) : Except JsErr String := do
  let tp ← getF property "type"
  match tp with
  | JValue.jstr ts => propertyValueCase ts property
  | _ => pure "(Unsupported property type)"

/-- The row-building loop of `convertPropertiesToMarkdown`. -/
def propertyRows : List (String × JValue) → Except JsErr String
  | [] => pure ""
  | (key, prop) :: rest => do
      let value ← propertyValueString prop
      let r ← propertyRows rest
      pure ("| " ++ escapeTableCell (sanitizeCore key) ++ " | " ++
            escapeTableCell value ++ " |\n" ++ r)

/-- `convertPropertiesToMarkdown`. -/
def convertPropertiesToMarkdown (properties : JValue) : Except JsErr String :=
  if jsTruthy properties = false then pure ""
  else do
    let rows ← propertyRows (entriesD properties)
    pure ("## Properties\n\n| Property | Value |\n|------------|----|\n" ++ rows)

/-! ### Entity renderers -/

/-- `convertPageToMarkdown`. -/
def convertPageToMarkdown (page : JValue) : Except JsErr String :=
  if jsTruthy page = false then pure ""
  else do
    let t ← extractPageTitle page
    let title := sanitizeCore t
    let ptable ← convertPropertiesToMarkdown (fieldD page "properties")
    let url := fieldD page "url"
    pure ((if title = "" then "" else "# " ++ title ++ "\n\n") ++ ptable ++
      "\n\n> This page contains child blocks. You can retrieve them using `retrieveBlockChildren`.\n" ++
      "> Block ID: `" ++ sanitizeString (fieldD page "id") ++ "`\n" ++
      (if jsTruthy url then "\n[View in Notion](" ++ sanitizeString url ++ ")\n" else ""))

/-- The `switch (propType)` of `convertDatabaseToMarkdown`, computing the
Details column of one schema property.  `details` starts out empty and the
switch has no default case. -/
def dbDetails (prop : JValue) (propType : String) : Except JsErr String :=
  match propType with
  | "select" | "multi_select" => do
      let options ← jsArrayOrThrow (jOr (optF (fieldD prop propType) "options") (JValue.jarr []))
      let names ← mapME (fun o => do pure (sanitizeString (← getF o "name"))) options
      pure ("Options: " ++ String.intercalate ", " names)
  | "relation" =>
      pure ("Related DB: " ++
        sanitizeString (jOr (optF (fieldD prop "relation") "database_id") (JValue.jstr "")))
  | "formula" =>
      pure ("Formula: " ++
        sanitizeString (jOr (optF (fieldD prop "formula") "expression") (JValue.jstr "")))
  | "rollup" =>
      pure ("Rollup: " ++
        sanitizeString (jOr (optF (fieldD prop "rollup") "function") (JValue.jstr "")))
  | "created_by" | "last_edited_by" => pure "User reference"
  | "created_time" | "last_edited_time" => pure "Timestamp"
  | "date" => pure "Date or date range"
  | "email" => pure "Email address"
  | "files" => pure "File attachments"
  | "number" =>
      pure ("Format: " ++
        sanitizeString (jOr (optF (fieldD prop "number") "format") (JValue.jstr "plain number")))
  | "people" => pure "People reference"
  | "phone_number" => pure "Phone number"
  | "rich_text" => pure "Formatted text"
  | "status" => do
      let statusOptions ← jsArrayOrThrow (jOr (optF (fieldD prop "status") "options") (JValue.jarr []))
      let names ← mapME (fun o => do pure (sanitizeString (← getF o "name"))) statusOptions
      pure ("Options: " ++ String.intercalate ", " names)
  | "title" => pure "Database title"
  | "url" => pure "URL link"
  | "checkbox" => pure "Boolean value"
  | _ => pure ""

/-- One row of the database schema table.  `prop.name` throws on a nullish
schema entry; the Type column is not cell-escaped in the source. -/
def dbPropertyRow (key : String) (prop : JValue) : Except JsErr String := do
  let nm ← getF prop "name"
  let propName := sanitizeString (jOr nm (JValue.jstr key))
  let propType := sanitizeString (jOr (fieldD prop "type") (JValue.jstr "unknown"))
  let details ← dbDetails prop propType
  pure ("| " ++ escapeTableCell propName ++ " | " ++ propType ++ " | " ++
        escapeTableCell details ++ " |\n")

/-- The `forEach` over `Object.entries(database.properties)`. -/
def dbRows : List (String × JValue) → Except JsErr String
  | [] => pure ""
  | (k, p) :: rest => do
      let row ← dbPropertyRow k p
      let r ← dbRows rest
      pure (row ++ r)

/-- `convertDatabaseToMarkdown`. -/
def convertDatabaseToMarkdown (database : JValue) : Except JsErr String :=
  if jsTruthy database = false then pure ""
  else do
    let t ← extractRichText (jOr (fieldD database "title") (JValue.jarr []))
    let title := sanitizeCore t
    let d ← extractRichText (jOr (fieldD database "description") (JValue.jarr []))
    let description := sanitizeCore d
    let part2 ←
      if jsTruthy (fieldD database "properties") then do
        let rows ← dbRows (entriesD (fieldD database "properties"))
        pure ("## Properties\n\n| Property Name | Type | Details |\n|------------|------|------|\n" ++
              rows ++ "\n")
      else pure ""
    let url := fieldD database "url"
    pure ((if title = "" then "" else "# " ++ title ++ " (Database)\n\n") ++
      (if description = "" then "" else description ++ "\n\n") ++ part2 ++
      (if jsTruthy url then "\n[View in Notion](" ++ sanitizeString url ++ ")\n" else ""))

/-! ### Block rendering (`renderBlock`) -/

/-- `renderParagraph`. -/
def renderParagraph (paragraph : JValue) : Except JsErr String :=
  if jsTruthy paragraph = false then pure ""
  else if jsTruthy (fieldD paragraph "rich_text") = false then pure ""
  else extractRichText (fieldD paragraph "rich_text")

/-- `extractRichText(blockContent.k || [])`, the pattern used throughout the
block switch. -/
def richOfD (bc : JValue) (k : String) : Except JsErr String :=
  extractRichText (jOr (fieldD bc k) (JValue.jarr []))

/-- The `type === "external" ? blockContent.external?.url :
blockContent.file?.url` pattern shared verbatim by the image, file, pdf and
video cases, already passed through `sanitizeString`. -/
def extFileUrl (bc : JValue) : String :=
  sanitizeString
    (if jsEqStr (jOr (fieldD bc "type") (JValue.jstr "")) "external"
     then optF (fieldD bc "external") "url"
     else optF (fieldD bc "file") "url")

/-- The `switch (blockType)` of `renderBlock`, for a string-valued type tag
(non-string tags fall to the shared default arm in `renderBlock`). -/
def renderBlockCase (s : String) (bc : JValue) (block : JValue) : Except JsErr String :=
  match s with
  | "paragraph" => renderParagraph bc
  | "heading_1" => do pure ("# " ++ (← richOfD bc "rich_text"))
  | "heading_2" => do pure ("## " ++ (← richOfD bc "rich_text"))
  | "heading_3" => do pure ("### " ++ (← richOfD bc "rich_text"))
  | "bulleted_list_item" => do pure ("- " ++ (← richOfD bc "rich_text"))
  | "numbered_list_item" => do pure ("1. " ++ (← richOfD bc "rich_text"))
  | "to_do" => do
      let checked := if jsTruthy (fieldD bc "checked") then "x" else " "
      pure ("- [" ++ checked ++ "] " ++ (← richOfD bc "rich_text"))
  | "toggle" => do
      pure ("<details>\n<summary>" ++ (← richOfD bc "rich_text") ++
        "</summary>\n\n*Additional API request is needed to display child blocks*\n\n</details>")
  | "child_page" =>
      pure ("📄 **Child Page**: " ++ sanitizeString (jOr (fieldD bc "title") (JValue.jstr "Untitled")))
  | "image" => do
      let imageUrl := extFileUrl bc
      let c ← richOfD bc "caption"
      let imageCaption := if c = "" then "image" else c
      pure ("![" ++ imageCaption ++ "](" ++ (if imageUrl = "" then "#" else imageUrl) ++ ")")
  | "divider" => pure "---"
  | "quote" => do pure ("> " ++ (← richOfD bc "rich_text"))
  | "code" => do
      let codeLanguage := sanitizeString (jOr (fieldD bc "language") (JValue.jstr "plaintext"))
      let codeContent ← richOfD bc "rich_text"
      pure ("```" ++ codeLanguage ++ "\n" ++ codeContent ++ "\n```")
  | "callout" => do
      let calloutIcon := sanitizeString (jOr (optF (fieldD bc "icon") "emoji") (JValue.jstr ""))
      let calloutText ← richOfD bc "rich_text"
      pure ("> " ++ calloutIcon ++ " " ++ calloutText)
  | "bookmark" => do
      let bookmarkUrl := sanitizeString (jOr (fieldD bc "url") (JValue.jstr ""))
      let c ← richOfD bc "caption"
      let bookmarkCaption := if c = "" then bookmarkUrl else c
      pure ("[" ++ bookmarkCaption ++ "](" ++ bookmarkUrl ++ ")")
  | "table" =>
      pure ("*Table data (" ++ jsToStr (jOr (fieldD bc "table_width") (JValue.jnum 0)) ++
        " columns) - Additional API request is needed to display details*")
  | "child_database" =>
      pure ("📊 **Embedded Database**: `" ++ sanitizeString (fieldD block "id") ++ "`")
  | "breadcrumb" => pure "[breadcrumb navigation]"
  | "embed" =>
      pure ("[Embedded content](" ++ sanitizeString (jOr (fieldD bc "url") (JValue.jstr "")) ++ ")")
  | "equation" =>
      pure ("$$" ++ sanitizeString (jOr (fieldD bc "expression") (JValue.jstr "")) ++ "$$")
  | "file" => do
      let fileUrl := extFileUrl bc
      let fileName := sanitizeString (jOr (fieldD bc "name") (JValue.jstr "File"))
      pure ("📎 [" ++ fileName ++ "](" ++ (if fileUrl = "" then "#" else fileUrl) ++ ")")
  | "link_preview" =>
      pure ("🔗 [Preview](" ++ sanitizeString (jOr (fieldD bc "url") (JValue.jstr "")) ++ ")")
  | "link_to_page" =>
      let pid := fieldD bc "page_id"
      let did := fieldD bc "database_id"
      let p : String × String :=
        if jsTruthy pid then (sanitizeString pid, "Link to page")
        else if jsTruthy did then (sanitizeString did, "Link to database")
        else ("", "Link to page")
      pure ("🔗 **" ++ p.2 ++ "**: `" ++ p.1 ++ "`")
  | "pdf" => do
      let pdfUrl := extFileUrl bc
      let c ← richOfD bc "caption"
      let pdfCaption := if c = "" then "PDF" else c
      pure ("📄 [" ++ pdfCaption ++ "](" ++ (if pdfUrl = "" then "#" else pdfUrl) ++ ")")
  | "synced_block" =>
      let sf := fieldD bc "synced_from"
      let syncedFrom :=
        if jsTruthy sf then "`" ++ sanitizeString (fieldD sf "block_id") ++ "`" else "original"
      pure ("*Synced Block (" ++ syncedFrom ++
        ") - Additional API request is needed to display content*")
  | "table_of_contents" => pure "[TOC]"
  | "table_row" =>
      let cells := fieldD bc "cells"
      if jsTruthy cells = false then pure "*Empty table row*"
      else
        match cells with
        | JValue.jarr cs => do
            let parts ← mapME (fun cell => do
                pure (escapeTableCell (← extractRichText cell))) cs
            pure ("| " ++ String.intercalate " | " parts ++ " |")
        | _ => pure "*Empty table row*"
  | "template" => do pure ("*Template Block: " ++ (← richOfD bc "rich_text") ++ "*")
  | "video" => do
      let videoUrl := extFileUrl bc
      let c ← richOfD bc "caption"
      let videoCaption := if c = "" then "Video" else c
      pure ("🎬 [" ++ videoCaption ++ "](" ++ (if videoUrl = "" then "#" else videoUrl) ++ ")")
  | "unsupported" => pure "*Unsupported block*"
  | _ => pure ("*Unsupported block type: " ++ sanitizeString (JValue.jstr s) ++ "*")

/-- `renderBlock`: empty string when the block is falsy, its `type` is falsy,
or the payload `block[blockType]` is falsy and the type is not `"divider"`.
The computed access `block[blockType]` converts a non-string tag to a
property key with `String(...)`; a non-string tag never strictly equals the
string cases and lands in the default arm, where `sanitizeString` of a
non-string is the empty string. -/
def renderBlock (block : JValue) : Except JsErr String :=
  if jsTruthy block = false then pure ""
  else do
    let blockType ← getF block "type"
    if jsTruthy blockType = false then pure ""
    else
      let blockContent := fieldD block (jsToStr blockType)
      if !(jsTruthy blockContent) && !(jsEqStr blockType "divider") then pure ""
      else
        match blockType with
        | JValue.jstr s => renderBlockCase s blockContent block
        | _ => pure ("*Unsupported block type: " ++ sanitizeString blockType ++ "*")

/-- `convertBlockToMarkdown`. -/
def convertBlockToMarkdown (block : JValue) : Except JsErr String :=
  if jsTruthy block = false then pure "" else renderBlock block

/-! ### List rendering and the dispatcher -/

/-- One iteration of `convertListToMarkdown`'s result loop; `item.object`
throws on a nullish item. -/
def renderListItem (resultType : JValue) (item : JValue) : Except JsErr String := do
  let obj ← getF item "object"
  if jsEqStr obj "page" then
    if jsEqStr resultType "page" then do
      let t ← extractPageTitle item
      let title := sanitizeCore (if t = "" then "Untitled" else t)
      let safeUrl := sanitizeString (jOr (fieldD item "url") (JValue.jstr "#"))
      pure ("## [" ++ title ++ "](" ++ safeUrl ++ ")\n\n" ++
            "ID: `" ++ sanitizeString (fieldD item "id") ++ "`\n\n" ++ "---\n\n")
    else do
      let s ← convertPageToMarkdown item
      pure (s ++ "\n\n---\n\n")
  else if jsEqStr obj "database" then
    if jsEqStr resultType "database" then do
      let t ← extractRichText (jOr (fieldD item "title") (JValue.jarr []))
      let dbTitle := sanitizeCore (if t = "" then "Untitled Database" else t)
      let safeUrl := sanitizeString (jOr (fieldD item "url") (JValue.jstr "#"))
      pure ("## [" ++ dbTitle ++ "](" ++ safeUrl ++ ")\n\n" ++
            "ID: `" ++ sanitizeString (fieldD item "id") ++ "`\n\n" ++ "---\n\n")
    else do
      let s ← convertDatabaseToMarkdown item
      pure (s ++ "\n\n---\n\n")
  else if jsEqStr obj "block" then do
    let s ← renderBlock item
    pure (s ++ "\n\n")
  else
    pure ("```json\n" ++ strInterp (safeStringify item) ++ "\n```\n\n")

/-- The result loop of `convertListToMarkdown`. -/
def renderListItems (resultType : JValue) : List JValue → Except JsErr String
  | [] => pure ""
  | item :: rest => do
      let s ← renderListItem resultType item
      let r ← renderListItems resultType rest
      pure (s ++ r)

/-- The pagination suffix of `convertListToMarkdown`: present exactly when
`list.has_more` is truthy, with the sanitized cursor line added when
`list.next_cursor` is truthy. -/
def paginationNote (list : JValue) : String :=
  if jsTruthy (fieldD list "has_more") then
    "\n> More results available. Use `start_cursor` parameter with the next request.\n" ++
    (if jsTruthy (fieldD list "next_cursor")
     then "> Next cursor: `" ++ sanitizeString (fieldD list "next_cursor") ++ "`\n" else "")
  else ""

/-- `convertListToMarkdown`. -/
def convertListToMarkdown (list : JValue) : Except JsErr String :=
  if jsTruthy list = false then pure "```\nNo results\n```"
  else if jsTruthy (fieldD list "results") = false then pure "```\nNo results\n```"
  else
    match fieldD list "results" with
    | JValue.jarr items =>
        let resultType := jOr (optF (items.headD JValue.jundef) "object") (JValue.jstr "unknown")
        let header :=
          if jsEqStr resultType "page" then "# Search Results (Pages)\n\n"
          else if jsEqStr resultType "database" then "# Search Results (Databases)\n\n"
          else if jsEqStr resultType "block" then "# Block Contents\n\n"
          else "# Results List\n\n"
        do
          let body ← renderListItems resultType items
          pure (header ++ body ++ paginationNote list)
    | _ => pure "```\nNo results\n```"

/-- The fixed message produced by the top-level `catch`. -/
def conversionErrorMessage : String :=
  "Error converting response to Markdown. Please try using the JSON format instead."

/-- The body of the `try` block of `convertToMarkdown`: dispatch on
`response.object`, with the raw JSON dump as the default arm. -/
def dispatchResponse (response : JValue) : Except JsErr String := do
  let obj ← getF response "object"
  if jsEqStr obj "page" then convertPageToMarkdown response
  else if jsEqStr obj "database" then convertDatabaseToMarkdown response
  else if jsEqStr obj "block" then convertBlockToMarkdown response
  else if jsEqStr obj "list" then convertListToMarkdown response
  else pure ("```json\n" ++ strInterp (safeStringify response) ++ "\n```")

/-- `convertToMarkdown`, the sole public entry point: falsy input yields the
empty string; any exception escaping the dispatch is caught and replaced by
the fixed error message. -/
def convertToMarkdown (response : JValue) : String :=
  if jsTruthy response = false then ""
  else
    match dispatchResponse response with
    | Except.ok s => s
    | Except.error _ => conversionErrorMessage

/-! ### `safeStringify` over mutable object graphs

`JSON.stringify(obj, getCircularReplacer(), 2)` is sensitive to object
*identity*: the replacer keeps a `WeakSet` of every object it has already
returned and replaces any object seen a second time by the string
`"[Circular Reference]"`.  To model identity (and hence circular references)
we represent an object graph as a heap: `GHeap.objs` lists the field lists of
the objects, and a `GValue.gref id` points at the object with index `id`.
The `WeakSet` becomes the list `seen` of already-visited ids, threaded
through the traversal in visitation order exactly as the mutable set is.

`JSON.stringify` itself can still throw on exotic inputs (e.g. `BigInt`),
which the source guards with `try`/`catch`; in the model the only
serialization failure is fuel exhaustion (`Except.error`), and
`safeStringifyG` maps it to the source's fixed fallback string just as the
`catch` does.  The fuel `h.objs.length + 2` covers every chain of
descents, since each descent into an object permanently adds its id to
`seen` and ids outside the heap have no fields. -/

/-- A JavaScript value in an object graph: a primitive or a reference to a
heap object. -/
inductive GValue where
  | gnull
  | gundef
  | gbool (b : Bool)
  | gnum (n : Int)
  | gstr (s : String)
  | gref (id : Nat)

/-- A heap of plain objects: the object with id `i` has field list
`objs.get? i`. -/
structure GHeap where
  objs : List (List (String × GValue))

/-- Fields of the object `id` (references produced by a real JavaScript
program never dangle; absent ids behave as empty objects so the model stays
total). -/
def lookupObj (h : GHeap) (id : Nat) : List (String × GValue) :=
  (h.objs.get? id).getD []

/-- One step of `SerializeJSONProperty` with the circular replacer: the
replacer turns an already-seen object into the marker string (which is then
serialized as a JSON string literal), adds a fresh object to `seen` and
recurses into its members, skips members whose value serializes to
`undefined`, and prints with two-space indentation.  Returns the serialized
text (`none` for `undefined`) together with the updated `seen`. -/
def serG (h : GHeap) : Nat → List Nat → String → GValue → (Except Unit (Option String)) × List Nat
  | 0, seen, _, _ => (Except.error (), seen)
  | fuel + 1, seen, ind, v =>
      match v with
      | GValue.gnull => (Except.ok (some "null"), seen)
      | GValue.gundef => (Except.ok none, seen)
      | GValue.gbool b => (Except.ok (some (cond b "true" "false")), seen)
      | GValue.gnum n => (Except.ok (some (toString n)), seen)
      | GValue.gstr s => (Except.ok (some (jsonQuote s)), seen)
      | GValue.gref id =>
          if seen.contains id then (Except.ok (some (jsonQuote "[Circular Reference]")), seen)
          else
            let ind2 := ind ++ "  "
            let res := (lookupObj h id).foldl
              (fun acc kv =>
                match acc with
                | Except.error e => Except.error e
                | Except.ok (parts, sn) =>
                    match serG h fuel sn ind2 kv.2 with
                    | (Except.error e, _) => Except.error e
                    | (Except.ok none, sn2) => Except.ok (parts, sn2)
                    | (Except.ok (some sv), sn2) =>
                        Except.ok (parts ++ [jsonQuote kv.1 ++ ": " ++ sv], sn2))
              (Except.ok (([] : List String), id :: seen))
            match res with
            | Except.error e => (Except.error e, seen)
            | Except.ok (parts, sn) =>
                if parts.isEmpty then (Except.ok (some "\x7b\x7d"), sn)
                else
                  (Except.ok (some ("\x7b\n" ++ ind2 ++
                     String.intercalate (",\n" ++ ind2) parts ++ "\n" ++ ind ++ "\x7d")), sn)

/-- `safeStringify` over an object graph: `try { return JSON.stringify(obj,
getCircularReplacer(), 2) } catch { return the fixed fallback string }`.  A
`none` result is JavaScript's `undefined` being returned unchanged. -/
def safeStringifyG (h : GHeap) (v : GValue) : Option String :=
  match (serG h (h.objs.length + 2) [] "" v).1 with
  | Except.ok r => r
  | Except.error _ => some "\x7b\"error\": \"Failed to stringify object\"\x7d"

/-! ### Substring and cell-safety predicates used to state the claims -/

/-- Is `sub` a prefix of the list? (explicit Boolean scanner). -/
def startsWithSeq : List Char → List Char → Bool
  | [], _ => true
  | _ :: _, [] => false
  | a :: as, b :: bs => a == b && startsWithSeq as bs

/-- Does `sub` occur contiguously anywhere in the list? -/
def containsSeq (sub : List Char) : List Char → Bool
  | [] => startsWithSeq sub []
  | c :: rest => startsWithSeq sub (c :: rest) || containsSeq sub rest

/-- A prefix stays a prefix under appending on the right. -/
theorem startsWithSeq_append {sub a : List Char} (b : List Char)
    (h : startsWithSeq sub a = true) : startsWithSeq sub (a ++ b) = true := by
  induction sub generalizing a with
  | nil => rfl
  | cons x xs ih =>
      cases a with
      | nil => simp [startsWithSeq] at h
      | cons c a2 =>
          simp [startsWithSeq] at h ⊢
          exact ⟨h.1, ih h.2⟩

/-- Occurrence is preserved by appending on the right. -/
theorem containsSeq_append_left {sub a : List Char} (b : List Char)
    (h : containsSeq sub a = true) : containsSeq sub (a ++ b) = true := by
  induction a with
  | nil =>
      cases sub with
      | nil => cases b <;> simp [containsSeq, startsWithSeq]
      | cons x xs => simp [containsSeq, startsWithSeq] at h
  | cons c a2 ih =>
      simp [containsSeq] at h ⊢
      rcases h with h | h
      · exact Or.inl (startsWithSeq_append b h)
      · exact Or.inr (ih h)

/-- Occurrence is preserved by prepending on the left. -/
theorem containsSeq_append_right {sub : List Char} (a : List Char) {b : List Char}
    (h : containsSeq sub b = true) : containsSeq sub (a ++ b) = true := by
  induction a with
  | nil => simpa using h
  | cons c a2 ih => simpa [containsSeq] using Or.inr ih

/-- Cell safety, part 1: scanning with a flag recording whether the previous
character was a backslash, every pipe must be preceded by a backslash. -/
def pipesOkFrom : Bool → List Char → Bool
  | _, [] => true
  | prevBS, c :: rest => (decide (c ≠ '|') || prevBS) && pipesOkFrom (c == '\\') rest

/-- Every `|` in the list is immediately preceded by a `\`. -/
def pipesOk (l : List Char) : Bool := pipesOkFrom false l

/-- Cell safety, part 2: the list contains no newline. -/
def noNewline (l : List Char) : Bool := l.all (fun c => decide (c ≠ '\n'))

theorem pipesOkFrom_cons (b : Bool) (c : Char) (l : List Char) :
    pipesOkFrom b (c :: l) = ((decide (c ≠ '|') || b) && pipesOkFrom (c == '\\') l) := rfl

theorem nlToSpace_cons (c : Char) (l : List Char) :
    nlToSpace (c :: l) = (if c == '\n' then ' ' else c) :: nlToSpace l := rfl

theorem noNewline_cons (c : Char) (l : List Char) :
    noNewline (c :: l) = (decide (c ≠ '\n') && noNewline l) := rfl

theorem pipesOkFrom_escPipes : ∀ (l : List Char) (b : Bool), pipesOkFrom b (escPipes l) = true := by
  intro l
  induction l with
  | nil => intro b; rfl
  | cons c rest ih =>
      intro b
      by_cases hc : c = '|'
      · subst hc
        simp only [escPipes, if_pos rfl]
        simp [pipesOkFrom_cons, ih]
      · simp only [escPipes, if_neg (by simpa using hc : ¬(c == '|') = true), pipesOkFrom_cons]
        simp [hc, ih]

theorem pipesOkFrom_nlToSpace : ∀ (l : List Char) (b : Bool),
    pipesOkFrom b l = true → pipesOkFrom b (nlToSpace l) = true := by
  intro l
  induction l with
  | nil => intro b _; rfl
  | cons c rest ih =>
      intro b h
      simp only [pipesOkFrom_cons] at h
      simp only [nlToSpace_cons, pipesOkFrom_cons]
      by_cases hc : c = '\n'
      · subst hc
        simp at h ⊢
        exact ih false h
      · rw [if_neg (by simpa using hc : ¬(c == '\n') = true)]
        simp only [Bool.and_eq_true, Bool.or_eq_true] at h ⊢
        exact ⟨h.1, ih _ h.2⟩

theorem pipesOkFrom_escPlus : ∀ (l : List Char) (b : Bool),
    pipesOkFrom b l = true → pipesOkFrom b (escPlus l) = true := by
  intro l
  induction l with
  | nil => intro b _; rfl
  | cons c rest ih =>
      intro b h
      simp only [pipesOkFrom_cons] at h
      by_cases hc : c = '+'
      · subst hc
        simp only [escPlus, if_pos rfl, pipesOkFrom_cons]
        simp at h ⊢
        exact ih false h
      · simp only [escPlus, if_neg (by simpa using hc : ¬(c == '+') = true), pipesOkFrom_cons]
        simp only [Bool.and_eq_true, Bool.or_eq_true] at h ⊢
        exact ⟨h.1, ih _ h.2⟩

theorem noNewline_nlToSpace : ∀ l : List Char, noNewline (nlToSpace l) = true := by
  intro l
  induction l with
  | nil => rfl
  | cons c rest ih =>
      simp only [nlToSpace_cons, noNewline_cons, Bool.and_eq_true]
      refine ⟨?_, ih⟩
      by_cases hc : c = '\n'
      · subst hc; simp
      · rw [if_neg (by simpa using hc : ¬(c == '\n') = true)]
        simpa using hc

theorem noNewline_escPlus : ∀ l : List Char, noNewline l = true → noNewline (escPlus l) = true := by
  intro l
  induction l with
  | nil => intro _; rfl
  | cons c rest ih =>
      intro h
      simp only [noNewline_cons, Bool.and_eq_true] at h
      by_cases hc : c = '+'
      · subst hc
        simp only [escPlus, if_pos rfl]
        simp [noNewline_cons]
        exact ih h.2
      · simp only [escPlus, if_neg (by simpa using hc : ¬(c == '+') = true), noNewline_cons,
          Bool.and_eq_true]
        exact ⟨h.1, ih h.2⟩

/-- The two cell-safety properties hold of every `escapeTableCell` output. -/
theorem escapeTableCell_safe_aux (t : String) :
    pipesOk (escapeTableCell t).toList = true ∧ noNewline (escapeTableCell t).toList = true := by
  by_cases h : t = ""
  · subst h; exact ⟨rfl, rfl⟩
  · have hmk : (escapeTableCell t).toList
        = escPlus (nlToSpace (escPipes (sanitizeCore t).toList)) := by
      simp [escapeTableCell, h, String.toList]
    constructor
    · rw [hmk]
      exact pipesOkFrom_escPlus _ false
        (pipesOkFrom_nlToSpace _ false (pipesOkFrom_escPipes _ false))
    · rw [hmk]
      exact noNewline_escPlus _ (noNewline_nlToSpace _)

/-- Claim C8: for every input string, `escapeTableCell` yields a string with
no newline character and no pipe character that is not immediately preceded
by a backslash, and a second application of `escapeTableCell` to that output
again satisfies both properties, so re-escaping never breaks Markdown table
structure. -/
theorem escapeTableCell_table_safe (s : String) :
    (pipesOk (escapeTableCell s).toList = true ∧
     noNewline (escapeTableCell s).toList = true) ∧
    (pipesOk (escapeTableCell (escapeTableCell s)).toList = true ∧
     noNewline (escapeTableCell (escapeTableCell s)).toList = true) :=
  ⟨escapeTableCell_safe_aux s, escapeTableCell_safe_aux (escapeTableCell s)⟩

/-- Witness for C8 at a concrete input: a cell containing a pipe, a plus and
a newline escapes to a table-safe string, twice over. -/
theorem escapeTableCell_table_safe_witness :
    (pipesOk (escapeTableCell "a|b+c\nd").toList = true ∧
     noNewline (escapeTableCell "a|b+c\nd").toList = true) ∧
    (pipesOk (escapeTableCell (escapeTableCell "a|b+c\nd")).toList = true ∧
     noNewline (escapeTableCell (escapeTableCell "a|b+c\nd")).toList = true) :=
  escapeTableCell_table_safe "a|b+c\nd"

/-! ### Claim C3: behaviour of `sanitizeString` -/

/-- `dropWhile` skips a whole prefix on which the predicate holds. -/
theorem dropWhile_append_all {p : Char → Bool} :
    ∀ {t : List Char} (r : List Char), t.all p = true →
      (t ++ r).dropWhile p = r.dropWhile p := by
  intro t
  induction t with
  | nil => intro r _; rfl
  | cons c t2 ih =>
      intro r h
      simp only [List.all_cons, Bool.and_eq_true] at h
      simpa [List.dropWhile, h.1] using ih r h.2

/-- Claim C3, counterexample: a base64 data-URI occurring in the middle of
the input is not removed — the data-URI pattern of `sanitizeString` is
anchored to the end of the string — contradicting "removes … base64
data-URIs occurring anywhere in an arbitrary input string". -/
theorem sanitizeString_keeps_inner_data_uri :
    sanitizeString (JValue.jstr "see data:text/html;base64,QUJD and more")
      = "see data:text/html;base64,QUJD and more" := rfl

/-- Claim C3, amended: `sanitizeString` removes script-tag blocks and inline
event-handler attributes occurring anywhere, returns the remainder
unchanged, and returns the empty string (without throwing) on every
non-string input; but a base64 data-URI is removed only when it extends to
the end of the string (the pattern is end-anchored), in which case the match
is removed from its leftmost start to the end. -/
theorem sanitizeString_amended
    (v : JValue) (hv : ∀ s, v ≠ JValue.jstr s)
    (t u : List Char) (ht : t.all (fun c => decide (c ≠ ';')) = true)
    (hu : u.all b64Char = true) :
    sanitizeString v = "" ∧
    removeDataUri (dataPat ++ t ++ basePat ++ u) = [] ∧
    sanitizeCore "A<script>bad()</script>B" = "AB" ∧
    sanitizeCore "<img onerror=\"boom()\" src>" = "<img  src>" ∧
    sanitizeCore (String.mk ['a', ' ', 'o', 'n', 'x', '=', squote, 'p', squote, ' ', 'b'])
      = "a  b" := by
  refine ⟨?_, ?_, rfl, rfl, rfl⟩
  · cases v with
    | jstr s => exact absurd rfl (hv s)
    | jnull => rfl
    | jundef => rfl
    | jbool b => rfl
    | jnum n => rfl
    | jarr xs => rfl
    | jobj fs => rfl
  · have hmatch :
        matchDataUriAt ('d' :: 'a' :: 't' :: 'a' :: ':' :: (t ++ (basePat ++ u))) = true := by
      unfold matchDataUriAt
      simp only [startsWithCI, lcEq]
      simp only [List.drop_succ_cons, List.drop_zero]
      rw [dropWhile_append_all _ ht]
      simp [basePat, startsWithCI, lcEq, List.dropWhile, hu]
    have hshape : dataPat ++ t ++ basePat ++ u
        = 'd' :: 'a' :: 't' :: 'a' :: ':' :: (t ++ (basePat ++ u)) := by
      simp [dataPat, List.append_assoc]
    rw [hshape]
    simp [removeDataUri, hmatch]

/-- Witness for C3's amended theorem: instantiated at the non-string input
`5` and the end-anchored data-URI `data:x;base64,QQ==`. -/
theorem sanitizeString_amended_witness :
    sanitizeString (JValue.jnum 5) = "" ∧
    removeDataUri (dataPat ++ ['x'] ++ basePat ++ ['Q', 'Q', '=', '=']) = [] := by
  have h := sanitizeString_amended (JValue.jnum 5) (fun s h => by cases h)
    ['x'] ['Q', 'Q', '=', '='] (by decide) (by decide)
  exact ⟨h.1, h.2.1⟩

/-! ### Claim C2: script-tag substrings in renderer output -/

theorem except_ok_bind {α β : Type} (x : α) (f : α → Except JsErr β) :
    (Except.ok x : Except JsErr α) >>= f = f x := rfl

theorem except_error_bind {α β : Type} (e : JsErr) (f : α → Except JsErr β) :
    (Except.error e : Except JsErr α) >>= f = Except.error e := rfl

theorem removeScriptsF_nil : ∀ fuel : Nat, removeScriptsF fuel [] = [] := by
  intro fuel; cases fuel <;> rfl

/-- A nonempty `String.mk` is a truthy JavaScript string. -/
theorem mk_cons_bne_empty (c : Char) (l : List Char) : (String.mk (c :: l) != "") = true := by
  have h : String.mk (c :: l) ≠ "" := by
    intro h
    have := congrArg String.data h
    simp at this
  simpa [bne_iff_ne] using h

/-- Claim C2, counterexample: the raw-dump fallback branch of
`convertToMarkdown` (taken when the `object` discriminator is unrecognized)
serializes the response with `safeStringify` and no sanitization, so a
script-tag substring in a text field reappears verbatim in the output,
contradicting the claim for that branch. -/
theorem convertToMarkdown_fallback_emits_script :
    containsSeq (String.toList "<script>x</script>")
      (String.toList (convertToMarkdown
        (JValue.jobj [("object", JValue.jstr "mystery"),
                      ("note", JValue.jstr "<script>x</script>")]))) = true := by
  decide

/-- Claim C2, amended: renderers that pass text through `sanitizeString`
strip a well-formed script-tag block (body free of `<`): the sanitizer maps
it to the empty string, and e.g. a paragraph block whose rich text's plain
text is such a block renders to the empty string.  The raw-dump fallback
branch, by contrast, reproduces the substring verbatim (see the
counterexample). -/
theorem sanitize_strips_wellformed_script
    (t : List Char) (ht : t.all (fun c => decide (c ≠ '<')) = true) :
    sanitizeCore (String.mk
      ('<' :: 's' :: 'c' :: 'r' :: 'i' :: 'p' :: 't' :: '>' ::
        (t ++ ['<', '/', 's', 'c', 'r', 'i', 'p', 't', '>']))) = "" ∧
    renderBlock (JValue.jobj [("type", JValue.jstr "paragraph"),
      ("paragraph", JValue.jobj [("rich_text", JValue.jarr
        [JValue.jobj [("plain_text", JValue.jstr (String.mk
          ('<' :: 's' :: 'c' :: 'r' :: 'i' :: 'p' :: 't' :: '>' ::
            (t ++ ['<', '/', 's', 'c', 'r', 'i', 'p', 't', '>']))))]])])])
      = Except.ok "" := by
  have hopen : startsWithCI openScript
      ('<' :: 's' :: 'c' :: 'r' :: 'i' :: 'p' :: 't' :: '>' ::
        (t ++ ['<', '/', 's', 'c', 'r', 'i', 'p', 't', '>'])) = true := by
    simp only [openScript, startsWithCI]
    decide
  have h1 : List.dropWhile (fun x => decide (x ≠ '<'))
      ('>' :: (t ++ ['<', '/', 's', 'c', 'r', 'i', 'p', 't', '>']))
      = ['<', '/', 's', 'c', 'r', 'i', 'p', 't', '>'] := by
    rw [List.dropWhile_cons]
    rw [if_pos (by decide)]
    rw [dropWhile_append_all _ ht]
    rfl
  have hclose : scriptTail ['<', '/', 's', 'c', 'r', 'i', 'p', 't', '>'] = some [] := by decide
  have hms : matchScriptAt
      ('<' :: 's' :: 'c' :: 'r' :: 'i' :: 'p' :: 't' :: '>' ::
        (t ++ ['<', '/', 's', 'c', 'r', 'i', 'p', 't', '>'])) = some [] := by
    unfold matchScriptAt
    simp only [hopen, if_true, List.drop_succ_cons, List.drop_zero]
    simp only [show isWordChar '>' = false from by decide, Bool.false_eq_true, if_false]
    rw [h1, hclose]
  have hrem : removeScripts
      ('<' :: 's' :: 'c' :: 'r' :: 'i' :: 'p' :: 't' :: '>' ::
        (t ++ ['<', '/', 's', 'c', 'r', 'i', 'p', 't', '>'])) = [] := by
    unfold removeScripts
    simp only [List.length_cons]
    rw [removeScriptsF]
    rw [hms]
    exact removeScriptsF_nil _
  have hsan : sanitizeCore (String.mk
      ('<' :: 's' :: 'c' :: 'r' :: 'i' :: 'p' :: 't' :: '>' ::
        (t ++ ['<', '/', 's', 'c', 'r', 'i', 'p', 't', '>']))) = "" := by
    unfold sanitizeCore
    rw [show (String.mk
      ('<' :: 's' :: 'c' :: 'r' :: 'i' :: 'p' :: 't' :: '>' ::
        (t ++ ['<', '/', 's', 'c', 'r', 'i', 'p', 't', '>']))).toList
      = '<' :: 's' :: 'c' :: 'r' :: 'i' :: 'p' :: 't' :: '>' ::
        (t ++ ['<', '/', 's', 'c', 'r', 'i', 'p', 't', '>']) from rfl]
    rw [hrem]
    rfl
  refine ⟨hsan, ?_⟩
  simp [renderBlock, renderBlockCase, renderParagraph, extractRichText, renderRichItem,
    mapME, getF, fieldD, lookupField, optF, jOr, jsTruthy, jsToStr, sanitizeString,
    except_ok_bind, hsan, mk_cons_bne_empty, String.join]

/-- Witness for C2's amended theorem at the concrete body `alert(1)`. -/
theorem sanitize_strips_wellformed_script_witness :
    sanitizeCore (String.mk
      ('<' :: 's' :: 'c' :: 'r' :: 'i' :: 'p' :: 't' :: '>' ::
        (['a', 'l', 'e', 'r', 't', '(', '1', ')'] ++
          ['<', '/', 's', 'c', 'r', 'i', 'p', 't', '>']))) = "" :=
  (sanitize_strips_wellformed_script ['a', 'l', 'e', 'r', 't', '(', '1', ')'] (by decide)).1

/-! ### Claim C4: annotation nesting order in `extractRichText` -/

theorem foldl_append_str (l : List String) :
    ∀ a b : String, l.foldl (· ++ ·) (a ++ b) = a ++ l.foldl (· ++ ·) b := by
  induction l with
  | nil => intro a b; rfl
  | cons c t ih =>
      intro a b
      simp only [List.foldl_cons, String.append_assoc]
      exact ih a (b ++ c)

theorem join_cons_str (s : String) (l : List String) :
    String.join (s :: l) = s ++ String.join l := by
  show l.foldl (· ++ ·) ("" ++ s) = s ++ l.foldl (· ++ ·) ""
  have h : ("" : String) ++ s = s ++ "" := by simp
  rw [h]
  exact foldl_append_str l s ""

/-- `if b then l ++ t ++ r else t`: the textual wrapping used to state the
annotation order of §4.2. -/
def wrapIf (b : Bool) (l r t : String) : String := if b then l ++ t ++ r else t

/-- A rich-text run with the four annotation flags, used to state C4. -/
def mkRun (s : String) (b i st c : Bool) : JValue :=
  JValue.jobj
    [("plain_text", JValue.jstr s),
     ("annotations", JValue.jobj
        [("bold", JValue.jbool b), ("italic", JValue.jbool i),
         ("strikethrough", JValue.jbool st), ("code", JValue.jbool c)])]

/-- Claim C4: each run renders as the sanitized plain text wrapped — in this
order — by code, bold, italic, strikethrough markers (code innermost,
strikethrough outermost), then as a link when `href` is present; runs are
concatenated with no separator; and the bold-plus-italic run on `"x"`
renders as exactly `"***x***"`. -/
theorem extractRichText_annotation_order :
    (∀ (s : String) (b i st c : Bool),
      extractRichText (JValue.jarr [mkRun s b i st c])
        = Except.ok (wrapIf st "~~" "~~" (wrapIf i "*" "*"
            (wrapIf b "**" "**" (wrapIf c "`" "`" (sanitizeCore s)))))) ∧
    (∀ (s u : String) (b i st c : Bool),
      extractRichText (JValue.jarr [JValue.jobj
        [("plain_text", JValue.jstr s),
         ("annotations", JValue.jobj
            [("bold", JValue.jbool b), ("italic", JValue.jbool i),
             ("strikethrough", JValue.jbool st), ("code", JValue.jbool c)]),
         ("href", JValue.jstr u)]])
        = Except.ok
            (let inner := wrapIf st "~~" "~~" (wrapIf i "*" "*"
              (wrapIf b "**" "**" (wrapIf c "`" "`" (sanitizeCore s))))
             if u = "" then inner
             else "[" ++ inner ++ "](" ++ sanitizeCore u ++ ")")) ∧
    (∀ xs ys : List JValue,
      extractRichText (JValue.jarr (xs ++ ys))
        = (do
            let a ← extractRichText (JValue.jarr xs)
            let b ← extractRichText (JValue.jarr ys)
            pure (a ++ b))) ∧
    extractRichText (JValue.jarr [mkRun "x" true true false false]) = Except.ok "***x***" := by
  have hrun : ∀ (s : String) (b i st c : Bool),
      renderRichItem (mkRun s b i st c)
        = Except.ok (wrapIf st "~~" "~~" (wrapIf i "*" "*"
            (wrapIf b "**" "**" (wrapIf c "`" "`" (sanitizeCore s))))) := by
    intro s b i st c
    by_cases hs : s = ""
    · subst hs
      simp [renderRichItem, mkRun, getF, fieldD, lookupField, optF, jOr, jsTruthy,
        sanitizeString, wrapIf, except_ok_bind]
    · have hbne : (s != "") = true := by simpa [bne_iff_ne] using hs
      simp [renderRichItem, mkRun, getF, fieldD, lookupField, optF, jOr, jsTruthy,
        sanitizeString, wrapIf, except_ok_bind, hbne]
  refine ⟨?_, ?_, ?_, ?_⟩
  · intro s b i st c
    simp [extractRichText, mapME, hrun, except_ok_bind, jsTruthy, String.join, wrapIf]
  · intro s u b i st c
    have hrun2 : renderRichItem (JValue.jobj
        [("plain_text", JValue.jstr s),
         ("annotations", JValue.jobj
            [("bold", JValue.jbool b), ("italic", JValue.jbool i),
             ("strikethrough", JValue.jbool st), ("code", JValue.jbool c)]),
         ("href", JValue.jstr u)])
        = Except.ok
            (let inner := wrapIf st "~~" "~~" (wrapIf i "*" "*"
              (wrapIf b "**" "**" (wrapIf c "`" "`" (sanitizeCore s))))
             if u = "" then inner
             else "[" ++ inner ++ "](" ++ sanitizeCore u ++ ")") := by
      by_cases hs : s = ""
      · subst hs
        by_cases hu : u = ""
        · subst hu
          simp [renderRichItem, getF, fieldD, lookupField, optF, jOr, jsTruthy,
            sanitizeString, wrapIf, except_ok_bind]
        · have hubne : (u != "") = true := by simpa [bne_iff_ne] using hu
          simp [renderRichItem, getF, fieldD, lookupField, optF, jOr, jsTruthy,
            sanitizeString, wrapIf, except_ok_bind, hubne, hu]
      · have hbne : (s != "") = true := by simpa [bne_iff_ne] using hs
        by_cases hu : u = ""
        · subst hu
          simp [renderRichItem, getF, fieldD, lookupField, optF, jOr, jsTruthy,
            sanitizeString, wrapIf, except_ok_bind, hbne]
        · have hubne : (u != "") = true := by simpa [bne_iff_ne] using hu
          simp [renderRichItem, getF, fieldD, lookupField, optF, jOr, jsTruthy,
            sanitizeString, wrapIf, except_ok_bind, hbne, hubne, hu]
    simp [extractRichText, mapME, hrun2, except_ok_bind, jsTruthy, String.join]
  · have hmap : ∀ xs ys : List JValue,
        mapME renderRichItem (xs ++ ys)
          = (do
              let a ← mapME renderRichItem xs
              let b ← mapME renderRichItem ys
              pure (a ++ b)) := by
      intro xs ys
      induction xs with
      | nil =>
          cases h : mapME renderRichItem ys <;>
            simp [mapME, except_ok_bind, except_error_bind, h]
      | cons x xs2 ih =>
          cases hx : renderRichItem x with
          | error e => simp [mapME, hx, except_error_bind]
          | ok v =>
              cases h2 : mapME renderRichItem xs2 with
              | error e =>
                  simp [mapME, hx, h2, except_ok_bind, except_error_bind, ih]
              | ok l2 =>
                  cases h3 : mapME renderRichItem ys with
                  | error e =>
                      simp [mapME, hx, h2, h3, except_ok_bind, except_error_bind, ih]
                  | ok l3 =>
                      simp [mapME, hx, h2, h3, except_ok_bind, except_error_bind, ih]
    have hjoin : ∀ a b : List String, String.join (a ++ b) = String.join a ++ String.join b := by
      intro a b
      induction a with
      | nil => simp [String.join]
      | cons s t ih =>
          simp only [List.cons_append, join_cons_str, ih, String.append_assoc]
    intro xs ys
    cases h1 : mapME renderRichItem xs with
    | error e =>
        simp [extractRichText, jsTruthy, hmap, h1, except_error_bind, except_ok_bind]
    | ok l1 =>
        cases h2 : mapME renderRichItem ys with
        | error e =>
            simp [extractRichText, jsTruthy, hmap, h1, h2, except_error_bind, except_ok_bind]
        | ok l2 =>
            simp [extractRichText, jsTruthy, hmap, h1, h2, except_ok_bind, hjoin]
  · rfl

/-! ### Claim C5: the empty-string guards of `renderBlock` -/

/-- Claim C5: `renderBlock` returns the empty string when the block is
falsy, when its `type` tag is falsy, and when the payload stored under the
key named after the type tag is falsy for a non-`divider` type; a `divider`
block with no payload renders as `"---"`; and a `heading_2` block whose rich
text is the plain unannotated string `"Lacinato kale"` renders as exactly
`"## Lacinato kale"`. -/
theorem renderBlock_guards :
    (∀ v : JValue, jsTruthy v = false → renderBlock v = Except.ok "") ∧
    (∀ v t : JValue, jsTruthy v = true → getF v "type" = Except.ok t →
       jsTruthy t = false → renderBlock v = Except.ok "") ∧
    (∀ v t : JValue, jsTruthy v = true → getF v "type" = Except.ok t →
       jsTruthy t = true → jsTruthy (fieldD v (jsToStr t)) = false →
       jsEqStr t "divider" = false → renderBlock v = Except.ok "") ∧
    renderBlock (JValue.jobj [("type", JValue.jstr "divider")]) = Except.ok "---" ∧
    renderBlock (JValue.jobj [("type", JValue.jstr "heading_2"),
      ("heading_2", JValue.jobj [("rich_text", JValue.jarr
        [JValue.jobj [("plain_text", JValue.jstr "Lacinato kale")]])])])
      = Except.ok "## Lacinato kale" := by
  refine ⟨?_, ?_, ?_, rfl, rfl⟩
  · intro v h
    simp [renderBlock, h]
    rfl
  · intro v t h1 h2 h3
    simp [renderBlock, h1, h2, h3, except_ok_bind]
    rfl
  · intro v t h1 h2 h3 h4 h5
    simp [renderBlock, h1, h2, h3, h4, h5, except_ok_bind]
    rfl

/-- Witness for C5 at concrete inputs: a `null` block, a block with an empty
type tag, and a payload-less `paragraph` block all render to the empty
string. -/
theorem renderBlock_guards_witness :
    renderBlock JValue.jnull = Except.ok "" ∧
    renderBlock (JValue.jobj [("type", JValue.jstr "")]) = Except.ok "" ∧
    renderBlock (JValue.jobj [("type", JValue.jstr "paragraph")]) = Except.ok "" :=
  ⟨renderBlock_guards.1 JValue.jnull rfl,
   renderBlock_guards.2.1 (JValue.jobj [("type", JValue.jstr "")]) (JValue.jstr "")
     rfl rfl rfl,
   renderBlock_guards.2.2.1 (JValue.jobj [("type", JValue.jstr "paragraph")])
     (JValue.jstr "paragraph") rfl rfl rfl rfl rfl⟩

/-! ### Claim C6: rendering of `date` page properties -/

set_option maxHeartbeats 1000000 in
/-- Claim C6: a `date` property renders as the sanitized start date, with
`" → "` followed by the sanitized end date appended exactly when `end` is a
present (nonempty) string; with a `null` or absent `end` no arrow appears,
and the concrete property with start `"2023-02-23"` and `null` end produces
exactly the table row `| Due | 2023-02-23 |`. -/
theorem dateProperty_rendering :
    (∀ s e : String,
      propertyValueString (JValue.jobj [("type", JValue.jstr "date"),
        ("date", JValue.jobj [("start", JValue.jstr s), ("end", JValue.jstr e)])])
        = Except.ok (sanitizeCore s ++
            (if e = "" then "" else " → " ++ sanitizeCore e))) ∧
    (∀ s : String,
      propertyValueString (JValue.jobj [("type", JValue.jstr "date"),
        ("date", JValue.jobj [("start", JValue.jstr s), ("end", JValue.jnull)])])
        = Except.ok (sanitizeCore s)) ∧
    (∀ s : String,
      propertyValueString (JValue.jobj [("type", JValue.jstr "date"),
        ("date", JValue.jobj [("start", JValue.jstr s)])])
        = Except.ok (sanitizeCore s)) ∧
    convertPropertiesToMarkdown (JValue.jobj [("Due", JValue.jobj
      [("type", JValue.jstr "date"),
       ("date", JValue.jobj [("start", JValue.jstr "2023-02-23"), ("end", JValue.jnull)])])])
      = Except.ok
          "## Properties\n\n| Property | Value |\n|------------|----|\n| Due | 2023-02-23 |\n" := by
  have hstart : ∀ s : String,
      sanitizeString (jOr (JValue.jstr s) (JValue.jstr "")) = sanitizeCore s := by
    intro s
    by_cases hs : s = ""
    · subst hs; rfl
    · have hbne : (s != "") = true := by simpa [bne_iff_ne] using hs
      simp [jOr, jsTruthy, hbne, sanitizeString]
  refine ⟨?_, ?_, ?_, rfl⟩
  · intro s e
    by_cases he : e = ""
    · subst he
      simp [propertyValueString, propertyValueCase, getF, fieldD, lookupField, optF, jOr, jsTruthy,
        except_ok_bind, hstart, sanitizeString]
      by_cases hs : s = "" <;> simp [hs] <;> rfl
    · have hebne : (e != "") = true := by simpa [bne_iff_ne] using he
      simp [propertyValueString, propertyValueCase, getF, fieldD, lookupField, optF, jOr, jsTruthy,
        except_ok_bind, hstart, hebne, he, sanitizeString]
      by_cases hs : s = "" <;> simp [hs] <;> rfl
  · intro s
    simp [propertyValueString, propertyValueCase, getF, fieldD, lookupField, optF, jOr, jsTruthy,
      except_ok_bind, hstart, sanitizeString]
    by_cases hs : s = "" <;> simp [hs] <;> rfl
  · intro s
    simp [propertyValueString, propertyValueCase, getF, fieldD, lookupField, optF, jOr, jsTruthy,
      except_ok_bind, hstart, sanitizeString]
    by_cases hs : s = "" <;> simp [hs] <;> rfl

/-! ### Claim C10: the `No results` guard versus an empty results array -/

/-- Claim C10: whenever the `results` field is not an array (absent, `null`,
or any non-array value), `convertListToMarkdown` returns exactly the fenced
text ```` ```\nNo results\n``` ````; a present but empty results array
instead yields the unknown-kind heading `# Results List` with no items after
it (followed only by the pagination note, which is empty for a list without
`has_more`). -/
theorem convertListToMarkdown_no_results :
    (∀ v : JValue, isArray (fieldD v "results") = false →
       convertListToMarkdown v = Except.ok "```\nNo results\n```") ∧
    (∀ v : JValue, jsTruthy v = true → fieldD v "results" = JValue.jarr [] →
       convertListToMarkdown v = Except.ok ("# Results List\n\n" ++ paginationNote v)) ∧
    convertListToMarkdown
        (JValue.jobj [("object", JValue.jstr "list"), ("results", JValue.jarr [])])
      = Except.ok "# Results List\n\n" := by
  refine ⟨?_, ?_, rfl⟩
  · intro v h
    by_cases hv : jsTruthy v
    · cases hres : fieldD v "results" with
      | jarr xs => rw [hres] at h; simp [isArray] at h
      | jnull => simp [convertListToMarkdown, hv, hres, jsTruthy]; rfl
      | jundef => simp [convertListToMarkdown, hv, hres, jsTruthy]; rfl
      | jbool b =>
          by_cases hb : b <;>
            (simp [convertListToMarkdown, hv, hres, jsTruthy, hb]; rfl)
      | jnum n =>
          by_cases hn : n = 0 <;>
            (simp [convertListToMarkdown, hv, hres, jsTruthy, hn]; rfl)
      | jstr s =>
          by_cases hs : s = "" <;>
            (simp [convertListToMarkdown, hv, hres, jsTruthy, hs, bne_iff_ne]; rfl)
      | jobj fs => simp [convertListToMarkdown, hv, hres, jsTruthy]; rfl
    · simp at hv
      simp [convertListToMarkdown, hv]
      rfl
  · intro v hv hres
    simp only [convertListToMarkdown, hres, hv]
    simp [jsTruthy, renderListItems, optF, jOr, jsEqStr, except_ok_bind]
    rfl

/-- Witness for C10: a list with no `results` field yields the fenced
`No results` text, and a list with an empty results array and `has_more`
yields the unknown-kind heading followed by the pagination note. -/
theorem convertListToMarkdown_no_results_witness :
    convertListToMarkdown (JValue.jobj [("object", JValue.jstr "list")])
      = Except.ok "```\nNo results\n```" ∧
    convertListToMarkdown (JValue.jobj [("object", JValue.jstr "list"),
        ("results", JValue.jarr []), ("has_more", JValue.jbool true)])
      = Except.ok ("# Results List\n\n" ++ paginationNote
          (JValue.jobj [("object", JValue.jstr "list"),
            ("results", JValue.jarr []), ("has_more", JValue.jbool true)])) :=
  ⟨convertListToMarkdown_no_results.1 (JValue.jobj [("object", JValue.jstr "list")]) rfl,
   convertListToMarkdown_no_results.2.1 (JValue.jobj [("object", JValue.jstr "list"),
      ("results", JValue.jarr []), ("has_more", JValue.jbool true)]) rfl rfl⟩

/-! ### Claim C7: the pagination note of `convertListToMarkdown` -/

/-- Claim C7, counterexample: with `has_more: true` and the non-null cursor
`"<script>x</script>"`, the cursor line contains the *sanitized* cursor
(here the empty string), not the cursor value verbatim — contradicting
"the note additionally includes that cursor value verbatim". -/
theorem convertListToMarkdown_cursor_not_verbatim :
    convertListToMarkdown (JValue.jobj [("object", JValue.jstr "list"),
        ("results", JValue.jarr []), ("has_more", JValue.jbool true),
        ("next_cursor", JValue.jstr "<script>x</script>")])
      = Except.ok
          "# Results List\n\n\n> More results available. Use `start_cursor` parameter with the next request.\n> Next cursor: ``\n" ∧
    containsSeq (String.toList "<script>x</script>")
      (String.toList
        "# Results List\n\n\n> More results available. Use `start_cursor` parameter with the next request.\n> Next cursor: ``\n")
      = false :=
  ⟨rfl, by decide⟩

/-- Claim C7, amended: whenever `convertListToMarkdown` succeeds on a list
whose `results` field is an array, its output ends with `paginationNote`;
when `has_more` is truthy that note consists of the fixed instruction line
(containing the literal word "cursor") plus, when `next_cursor` is truthy, a
line with the *sanitized* cursor value (verbatim exactly when sanitization
leaves the cursor unchanged); when `has_more` is falsy the note is empty, so
nothing is appended. -/
theorem convertListToMarkdown_pagination :
    (∀ (v : JValue) (s : String), convertListToMarkdown v = Except.ok s →
       isArray (fieldD v "results") = true →
       ∃ p, s = p ++ paginationNote v) ∧
    (∀ v : JValue, jsTruthy (fieldD v "has_more") = true →
       paginationNote v
         = "\n> More results available. Use `start_cursor` parameter with the next request.\n" ++
           (if jsTruthy (fieldD v "next_cursor")
            then "> Next cursor: `" ++ sanitizeString (fieldD v "next_cursor") ++ "`\n"
            else "") ∧
       containsSeq (String.toList "cursor") (String.toList (paginationNote v)) = true) ∧
    (∀ v : JValue, jsTruthy (fieldD v "has_more") = false → paginationNote v = "") := by
  refine ⟨?_, ?_, ?_⟩
  · intro v s hok harr
    cases v with
    | jobj fs =>
        cases hres : lookupField "results" fs with
        | jarr items =>
            have hres2 : fieldD (JValue.jobj fs) "results" = JValue.jarr items := by
              simpa [fieldD] using hres
            simp only [convertListToMarkdown, hres2, jsTruthy] at hok
            simp at hok
            rcases hE : renderListItems
                (jOr (optF (items.head?.getD JValue.jundef) "object") (JValue.jstr "unknown"))
                items with e | b
            · rw [hE] at hok
              simp [Except.map] at hok
            · rw [hE] at hok
              simp [Except.map] at hok
              exact ⟨_, hok.symm⟩
        | jnull =>
            have : fieldD (JValue.jobj fs) "results" = JValue.jnull := by simpa [fieldD] using hres
            rw [this] at harr; simp [isArray] at harr
        | jundef =>
            have : fieldD (JValue.jobj fs) "results" = JValue.jundef := by
              simpa [fieldD] using hres
            rw [this] at harr; simp [isArray] at harr
        | jbool b =>
            have : fieldD (JValue.jobj fs) "results" = JValue.jbool b := by
              simpa [fieldD] using hres
            rw [this] at harr; simp [isArray] at harr
        | jnum n =>
            have : fieldD (JValue.jobj fs) "results" = JValue.jnum n := by
              simpa [fieldD] using hres
            rw [this] at harr; simp [isArray] at harr
        | jstr t =>
            have : fieldD (JValue.jobj fs) "results" = JValue.jstr t := by
              simpa [fieldD] using hres
            rw [this] at harr; simp [isArray] at harr
        | jobj fs2 =>
            have : fieldD (JValue.jobj fs) "results" = JValue.jobj fs2 := by
              simpa [fieldD] using hres
            rw [this] at harr; simp [isArray] at harr
    | jnull => simp [fieldD, isArray] at harr
    | jundef => simp [fieldD, isArray] at harr
    | jbool b => simp [fieldD, isArray] at harr
    | jnum n => simp [fieldD, isArray] at harr
    | jstr t => simp [fieldD, isArray] at harr
    | jarr xs => simp [fieldD, isArray] at harr
  · intro v h
    constructor
    · simp [paginationNote, h]
    · have hnote : paginationNote v
          = "\n> More results available. Use `start_cursor` parameter with the next request.\n" ++
            (if jsTruthy (fieldD v "next_cursor")
             then "> Next cursor: `" ++ sanitizeString (fieldD v "next_cursor") ++ "`\n"
             else "") := by
        simp [paginationNote, h]
      rw [hnote]
      rw [show (String.toList
          ("\n> More results available. Use `start_cursor` parameter with the next request.\n" ++
            (if jsTruthy (fieldD v "next_cursor")
             then "> Next cursor: `" ++ sanitizeString (fieldD v "next_cursor") ++ "`\n"
             else "")))
        = String.toList
            "\n> More results available. Use `start_cursor` parameter with the next request.\n" ++
          String.toList
            (if jsTruthy (fieldD v "next_cursor")
             then "> Next cursor: `" ++ sanitizeString (fieldD v "next_cursor") ++ "`\n"
             else "") from rfl]
      exact containsSeq_append_left _ (by decide)
  · intro v h
    simp [paginationNote, h]

/-- Witness for C7's amended theorem at a concrete list with cursor
`abc123` (and, for the empty-note clause, a list with `has_more: false`). -/
theorem convertListToMarkdown_pagination_witness :
    (∃ p,
      ("# Results List\n\n\n> More results available. Use `start_cursor` parameter with the next request.\n> Next cursor: `abc123`\n")
        = p ++ paginationNote (JValue.jobj [("object", JValue.jstr "list"),
            ("results", JValue.jarr []), ("has_more", JValue.jbool true),
            ("next_cursor", JValue.jstr "abc123")])) ∧
    containsSeq (String.toList "cursor")
      (String.toList (paginationNote (JValue.jobj [("object", JValue.jstr "list"),
        ("results", JValue.jarr []), ("has_more", JValue.jbool true),
        ("next_cursor", JValue.jstr "abc123")]))) = true ∧
    paginationNote (JValue.jobj [("object", JValue.jstr "list"),
        ("results", JValue.jarr []), ("has_more", JValue.jbool false)]) = "" :=
  ⟨convertListToMarkdown_pagination.1
      (JValue.jobj [("object", JValue.jstr "list"), ("results", JValue.jarr []),
        ("has_more", JValue.jbool true), ("next_cursor", JValue.jstr "abc123")])
      _ rfl rfl,
   (convertListToMarkdown_pagination.2.1
      (JValue.jobj [("object", JValue.jstr "list"), ("results", JValue.jarr []),
        ("has_more", JValue.jbool true), ("next_cursor", JValue.jstr "abc123")]) rfl).2,
   convertListToMarkdown_pagination.2.2
      (JValue.jobj [("object", JValue.jstr "list"), ("results", JValue.jarr []),
        ("has_more", JValue.jbool false)]) rfl⟩

/-! ### Claim C1: totality of `convertToMarkdown` and the top-level catch -/

/-- Claim C1: `convertToMarkdown` returns a string for every input —
including `null`, `undefined`, the empty object (raw-dumped as `{}`), and
objects with an unrecognized `object` discriminator — and whenever the
dispatched rendering raises an exception, that exception is caught at this
single entry point and replaced by the one fixed message telling the caller
to use the JSON format instead. -/
theorem convertToMarkdown_total_and_catches :
    (∀ v : JValue, ∃ s : String, convertToMarkdown v = s) ∧
    convertToMarkdown JValue.jnull = "" ∧
    convertToMarkdown JValue.jundef = "" ∧
    convertToMarkdown (JValue.jobj []) = "```json\n\x7b\x7d\n```" ∧
    convertToMarkdown (JValue.jobj [("object", JValue.jstr "mystery")])
      = "```json\n\x7b\n  \"object\": \"mystery\"\n\x7d\n```" ∧
    (∀ (v : JValue) (e : JsErr), jsTruthy v = true →
       dispatchResponse v = Except.error e →
       convertToMarkdown v = conversionErrorMessage) := by
  refine ⟨fun v => ⟨convertToMarkdown v, rfl⟩, rfl, rfl, rfl, rfl, ?_⟩
  intro v e hv hd
  simp [convertToMarkdown, hv, hd]

/-- Witness for C1 at a concrete input: a page whose `multi_select` payload
contains a `null` item makes an inner renderer throw (`item.name` on
`null`), and the entry point converts the exception into the fixed
message. -/
theorem convertToMarkdown_total_and_catches_witness :
    dispatchResponse (JValue.jobj [("object", JValue.jstr "page"),
      ("properties", JValue.jobj [("t", JValue.jobj
        [("type", JValue.jstr "multi_select"),
         ("multi_select", JValue.jarr [JValue.jnull])])])])
      = Except.error JsErr.typeError ∧
    convertToMarkdown (JValue.jobj [("object", JValue.jstr "page"),
      ("properties", JValue.jobj [("t", JValue.jobj
        [("type", JValue.jstr "multi_select"),
         ("multi_select", JValue.jarr [JValue.jnull])])])])
      = conversionErrorMessage :=
  ⟨rfl,
   convertToMarkdown_total_and_catches.2.2.2.2.2
     (JValue.jobj [("object", JValue.jstr "page"),
       ("properties", JValue.jobj [("t", JValue.jobj
         [("type", JValue.jstr "multi_select"),
          ("multi_select", JValue.jarr [JValue.jnull])])])])
     JsErr.typeError rfl rfl⟩

/-! ### Claim C9: `safeStringify` on object graphs -/

/-- Claim C9, counterexample: `JSON.stringify(undefined, replacer, 2)` is
`undefined`, which `safeStringify` returns unchanged (`none` in the model),
so `safeStringify` does not return a string for *every* input. -/
theorem safeStringifyG_undefined_not_string :
    safeStringifyG ⟨[]⟩ GValue.gundef = none := rfl

/-- When `serG` succeeds, its result is never the `undefined` marker unless
the input itself is `undefined`. -/
theorem serG_ok_not_none (h : GHeap) (fuel : Nat) (seen : List Nat) (ind : String)
    (v : GValue) (hv : v ≠ GValue.gundef) :
    (serG h fuel seen ind v).1 = Except.ok none → False := by
  cases fuel with
  | zero => intro heq; simp [serG] at heq
  | succ fuel =>
      cases v with
      | gnull => intro heq; simp [serG] at heq
      | gundef => exact absurd rfl hv
      | gbool b => intro heq; simp [serG] at heq
      | gnum n => intro heq; simp [serG] at heq
      | gstr s => intro heq; simp [serG] at heq
      | gref id =>
          intro heq
          simp only [serG] at heq
          split at heq
          · simp at heq
          · split at heq
            · simp at heq
            · split at heq <;> simp at heq

/-- Claim C9, amended: the circular replacer serializes a self-referential
object with the already-seen reference replaced by `"[Circular Reference]"`,
and for every input other than `undefined` the function returns a string
without throwing — the value produced by `JSON.stringify`, or the fixed
`Failed to stringify object` fallback should serialization fail (the `catch`
branch of the source). -/
theorem safeStringifyG_amended :
    safeStringifyG ⟨[[("self", GValue.gref 0)]]⟩ (GValue.gref 0)
      = some "\x7b\n  \"self\": \"[Circular Reference]\"\n\x7d" ∧
    (∀ (h : GHeap) (v : GValue), v ≠ GValue.gundef →
      ∃ s, safeStringifyG h v = some s ∧
        ((serG h (h.objs.length + 2) [] "" v).1 = Except.error () →
          s = "\x7b\"error\": \"Failed to stringify object\"\x7d")) := by
  refine ⟨rfl, ?_⟩
  intro h v hv
  rcases hr : (serG h (h.objs.length + 2) [] "" v).1 with e | r
  · refine ⟨"\x7b\"error\": \"Failed to stringify object\"\x7d", ?_, fun _ => rfl⟩
    simp [safeStringifyG, hr]
  · cases r with
    | none => exact absurd hr (fun hx => serG_ok_not_none h _ [] "" v hv hx)
    | some s =>
        refine ⟨s, by simp [safeStringifyG, hr], ?_⟩
        intro habs
        simp [hr] at habs

/-- Witness for C9's amended theorem: applied at `null` (a non-`undefined`
input) in the empty heap. -/
theorem safeStringifyG_amended_witness :
    ∃ s, safeStringifyG ⟨[]⟩ GValue.gnull = some s ∧
      ((serG ⟨[]⟩ ((⟨[]⟩ : GHeap).objs.length + 2) [] "" GValue.gnull).1 = Except.error () →
        s = "\x7b\"error\": \"Failed to stringify object\"\x7d") :=
  safeStringifyG_amended.2 ⟨[]⟩ GValue.gnull (fun hx => GValue.noConfusion hx)

end NotionMd
